import Mathlib

/-!
Formal model of the Cleancart price-comparison engine.

Shallow embedding of `src/frontend/src/context/CartContext.jsx` (the cart,
price-matrix, best-store, checkout, and order-management logic) together with
the pieces of `src/frontend/src/pages/Products.jsx` and
`src/frontend/src/pages/Dashboard.jsx` that feed it.

Modelling conventions:
- JavaScript numbers are modelled as exact rationals (`ℚ`); product ids and
  quantities, which the application only ever manipulates as integers, are
  modelled as `Int`.
- JavaScript object property access `obj[key]` that may yield `undefined`, and
  nullable values generally, are modelled with `Option`.
- The JS idiom `x || d` on strings (where `undefined`, `null` and `""` are
  falsy) is modelled by `orDefault`; `x || null` is modelled by `strOrNull` /
  `ratOrNull` (note `0` is falsy, so a zero total becomes `none`).
- `Array.prototype.sort` with the comparator `(a, b) => a.total - b.total` is,
  per ECMAScript 2019 and later, a stable sort consistent with the comparator;
  it is embedded as the stable insertion sort `sortByTotal` (an element is
  inserted before strictly greater elements and after earlier elements of
  equal key, which is exactly stability).
- `Number(x.toFixed(2))` is embedded as `roundCents`, the ECMAScript
  `toFixed` rule (round to the nearest multiple of 1/100, ties towards the
  larger value) applied to the exact rational value of `x`.
-/

namespace Cleancart

/-- Store record from the catalog (`stores` in `data/catalog`): immutable
reference data spread into every quote. -/
structure Store where
  id : String
  name : String
  deliveryFee : ℚ
  etaLabel : String
  rating : ℚ
deriving DecidableEq

/-- One entry of a product's `pricing` object: price and availability of the
product at one store. -/
structure Offer where
  price : ℚ
  available : Bool
deriving DecidableEq

/-- Product record from the catalog. `pricing` is the JS object mapping store
id to offer, modelled as an association list (object keys are unique). -/
structure Product where
  id : Int
  name : String
  category : String
  brand : String
  description : String
  specs : List String
  pricing : List (String × Offer)
deriving DecidableEq

/-- JS property access `product.pricing[storeId]`: `none` models
`undefined`. -/
def Product.offerFor (p : Product) (storeId : String) : Option Offer :=
  (p.pricing.find? (fun kv => kv.1 == storeId)).map (fun kv => kv.2)

/-- Cart entry `{productId, quantity}`. -/
structure CartEntry where
  productId : Int
  quantity : Int
deriving DecidableEq

/-- Catalog lookup `productCatalog.find((p) => p.id === entry.productId)`. -/
def findProduct (products : List Product) (pid : Int) : Option Product :=
  products.find? (fun p => p.id == pid)

/-- Accumulator element of the `totals` array built at the start of
`priceMatrix`: the store spread together with a running `total`, the
`unavailable` name list and the `items` list. -/
structure QuoteItem where
  product : Product
  quantity : Int
  price : ℚ
deriving DecidableEq

/-- Intermediate per-store accumulator (`totals` array in `priceMatrix`,
before the final formatting `map`). -/
structure StoreTotal where
  store : Store
  total : ℚ
  unavailable : List String
  items : List QuoteItem
deriving DecidableEq

/-- Final per-store quote produced by `priceMatrix` (store spread, rounded
total, item and unavailable lists, and the two derived counts). -/
structure StoreQuote where
  store : Store
  total : ℚ
  unavailable : List String
  items : List QuoteItem
  availableCount : Nat
  missingCount : Nat
deriving DecidableEq

/-- ECMAScript `Number(x.toFixed(2))` applied to the exact value `x`: round to
the nearest multiple of 1/100, ties to the larger value. -/
def roundCents (x : ℚ) : ℚ :=
  ((⌊x * 100 + 1 / 2⌋ : ℤ) : ℚ) / 100

/-- Initialization of the `totals` array: one accumulator per store, total
started at the delivery fee, empty lists. -/
def initTotals (stores : List Store) : List StoreTotal :=
  stores.map (fun s =>
    { store := s, total := s.deliveryFee, unavailable := [], items := [] })

/-- Body of the inner `totals.forEach` of `priceMatrix` for one store: look up
the offer; if present and available, push the enriched item and add
`price * quantity` to the total, else push the product name on the
unavailable list. -/
def applyOffer (product : Product) (quantity : Int) (st : StoreTotal) :
    StoreTotal :=
  match product.offerFor st.store.id with
  | some offer =>
    if offer.available then
      { st with
        items := st.items ++ [{ product := product, quantity := quantity,
                                price := offer.price }],
        total := st.total + offer.price * (quantity : ℚ) }
    else
      { st with unavailable := st.unavailable ++ [product.name] }
  | none => { st with unavailable := st.unavailable ++ [product.name] }

/-- Body of the outer `cart.forEach` of `priceMatrix` for one cart entry: a
dangling product reference is skipped (`if (!product) return`), otherwise
every store accumulator is updated. -/
def stepEntry (products : List Product) (totals : List StoreTotal)
    (entry : CartEntry) : List StoreTotal :=
  match findProduct products entry.productId with
  | none => totals
  | some product => totals.map (applyOffer product entry.quantity)

/-- Final formatting `map` of `priceMatrix`: round the total and derive
`availableCount` / `missingCount` from the list lengths. -/
def formatQuote (st : StoreTotal) : StoreQuote :=
  { store := st.store, total := roundCents st.total,
    unavailable := st.unavailable, items := st.items,
    availableCount := st.items.length, missingCount := st.unavailable.length }

/-- The `priceMatrix` memo of `CartContext.jsx`: one `StoreQuote` per store,
computed from the cart and the catalog. -/
def priceMatrix (cart : List CartEntry) (products : List Product)
    (stores : List Store) : List StoreQuote :=
  ((cart.foldl (stepEntry products) (initTotals stores)).map formatQuote)

/-- Stable insertion of a quote into an already sorted list: the new element
goes before strictly greater elements and after earlier elements of equal
total (the comparator `(a, b) => a.total - b.total` reports a tie there). -/
def insertByTotal (a : StoreQuote) : List StoreQuote → List StoreQuote
  | [] => [a]
  | b :: l => if a.total ≤ b.total then a :: b :: l else b :: insertByTotal a l

/-- Stable sort by `total`, embedding the ECMAScript stable
`sort((a, b) => a.total - b.total)`. -/
def sortByTotal : List StoreQuote → List StoreQuote
  | [] => []
  | a :: l => insertByTotal a (sortByTotal l)

/-- Best-store selection: the expression
`priceMatrix.filter((store) => store.missingCount === 0)
  .sort((a, b) => a.total - b.total)[0]`
inlined in `checkoutCart`, with `[0]` of an empty array (`undefined`) modelled
as `none`. The `bestStore` memo of `Products.jsx` computes the same value on
a non-empty cart (it copies the filtered array before sorting and returns
`null` explicitly when nothing qualifies). -/
def selectBestStore (quotes : List StoreQuote) : Option StoreQuote :=
  (sortByTotal (quotes.filter (fun q => q.missingCount == 0))).head?

/-- First quote of the list achieving the minimum total (`none` on the empty
list). Reference function used to characterize `selectBestStore`. -/
def firstMin : List StoreQuote → Option StoreQuote
  | [] => none
  | a :: l =>
    match firstMin l with
    | none => some a
    | some b => if a.total ≤ b.total then some a else some b

/-- The `user` object handed to `checkoutCart` (`user?.name`, `user?.email`
may be absent). -/
structure UserInfo where
  name : Option String
  email : Option String
deriving DecidableEq

/-- JS `x || d` for an optional string: `undefined` and `""` are falsy. -/
def orDefault (s : Option String) (d : String) : String :=
  match s with
  | some v => if v = "" then d else v
  | none => d

/-- JS `x || null` for an optional string (`""` is falsy). -/
def strOrNull (s : Option String) : Option String :=
  match s with
  | some v => if v = "" then none else some v
  | none => none

/-- JS `x || null` for an optional number (`0` is falsy). -/
def ratOrNull (x : Option ℚ) : Option ℚ :=
  match x with
  | some v => if v = 0 then none else some v
  | none => none

/-- Item of the order snapshot `{...product, quantity}`: when the catalog
lookup fails, spreading `undefined` contributes no fields, so the item
carries only the quantity — modelled by `product := none`. -/
structure EnrichedItem where
  product : Option Product
  quantity : Int
deriving DecidableEq

/-- Order record built by `checkoutCart`. -/
structure Order where
  id : String
  placedAt : String
  customer : String
  customerEmail : String
  items : List EnrichedItem
  storeComparisons : List StoreQuote
  bestStoreId : Option String
  bestStoreName : Option String
  selectedStoreId : Option String
  selectedStoreName : Option String
  selectedStoreTotal : Option ℚ
  selectedStoreDelivery : Option ℚ
  paymentMethod : String
  paymentNote : String
  address : String
  status : String
deriving DecidableEq

/-- Parameters of `checkoutCart` (`{user = {}, storeId, address,
paymentMethod, paymentNote}`); `storeId = none` models an `undefined`
store id, `address` is the free-form shipping payload. -/
structure CheckoutParams where
  user : UserInfo
  storeId : Option String
  address : String
  paymentMethod : Option String
  paymentNote : Option String
deriving DecidableEq

/-- The mutable provider state: the `cart` and `orders` react states. -/
structure CartState where
  cart : List CartEntry
  orders : List Order
deriving DecidableEq

/-- Enrichment of one cart entry for the order snapshot:
`{...productCatalog.find((p) => p.id === entry.productId), quantity}`. -/
def enrichItem (products : List Product) (e : CartEntry) : EnrichedItem :=
  { product := findProduct products e.productId, quantity := e.quantity }

/-- Resolution of the chosen store:
`priceMatrix.find((s) => s.id === storeId) || bestStore`. An `undefined`
`storeId` (modelled `none`) matches no quote, so the best store is used. -/
def chosenStoreOf (matrix : List StoreQuote) (storeId : Option String) :
    Option StoreQuote :=
  (matrix.find? (fun q => some q.store.id == storeId)).orElse
    (fun _ => selectBestStore matrix)

/-- Construction of the order object of `checkoutCart` from a cart snapshot.
`nowMs` models `Date.now()` and `nowIso` models
`new Date().toISOString()`, both environment inputs. -/
def buildOrder (products : List Product) (stores : List Store)
    (ps : CheckoutParams) (nowMs : Int) (nowIso : String)
    (cart : List CartEntry) : Order :=
  let matrix := priceMatrix cart products stores
  let bestStore := selectBestStore matrix
  let chosenStore := chosenStoreOf matrix ps.storeId
  { id := "ORD-" ++ toString nowMs
    placedAt := nowIso
    customer := orDefault ps.user.name "Guest"
    customerEmail := orDefault ps.user.email "-"
    items := cart.map (enrichItem products)
    storeComparisons := matrix
    bestStoreId := strOrNull (bestStore.map (fun q => q.store.id))
    bestStoreName := strOrNull (bestStore.map (fun q => q.store.name))
    selectedStoreId := strOrNull (chosenStore.map (fun q => q.store.id))
    selectedStoreName := strOrNull (chosenStore.map (fun q => q.store.name))
    selectedStoreTotal := ratOrNull (chosenStore.map (fun q => q.total))
    selectedStoreDelivery :=
      ratOrNull (chosenStore.map (fun q => q.store.deliveryFee))
    paymentMethod := orDefault ps.paymentMethod "cod"
    paymentNote := orDefault ps.paymentNote ""
    address := ps.address
    status := "Pending" }

/-- The `checkoutCart` operation: `null` and no state change on an empty cart;
otherwise build the order, prepend it to the order history
(`setOrders((prev) => [order, ...prev])`) and clear the cart. -/
def checkoutCart (products : List Product) (stores : List Store)
    (ps : CheckoutParams) (nowMs : Int) (nowIso : String) (st : CartState) :
    Option Order × CartState :=
  if st.cart.isEmpty then (none, st)
  else
    let order := buildOrder products stores ps nowMs nowIso st.cart
    (some order, { cart := [], orders := order :: st.orders })

/-- The `addToCart` operation: increment the quantity of an existing entry,
or append a fresh entry with quantity 1. -/
def addToCart (productId : Int) (cart : List CartEntry) : List CartEntry :=
  match cart.find? (fun item => item.productId == productId) with
  | some _ =>
    cart.map (fun item =>
      if item.productId == productId then
        { item with quantity := item.quantity + 1 }
      else item)
  | none => cart ++ [{ productId := productId, quantity := 1 }]

/-- The `removeFromCart` operation:
`prev.filter((item) => item.productId !== productId)`. -/
def removeFromCart (productId : Int) (cart : List CartEntry) :
    List CartEntry :=
  cart.filter (fun item => !(item.productId == productId))

/-- The `updateQuantity` operation: a quantity below 1 removes the entry,
otherwise the matching entry gets the new quantity. -/
def updateQuantity (productId : Int) (quantity : Int)
    (cart : List CartEntry) : List CartEntry :=
  if quantity ≤ 0 then removeFromCart productId cart
  else
    cart.map (fun item =>
      if item.productId == productId then { item with quantity := quantity }
      else item)

/-- The `updateOrderStatus` operation: replace the status of the matching
order, leave the others untouched. -/
def updateOrderStatus (orderId : String) (nextStatus : String)
    (orders : List Order) : List Order :=
  orders.map (fun o =>
    if o.id == orderId then { o with status := nextStatus } else o)

/-- The `deleteOrder` operation. -/
def deleteOrder (orderId : String) (orders : List Order) : List Order :=
  orders.filter (fun o => !(o.id == orderId))

/-- The `statusOptions` list of `Dashboard.jsx`, the only caller of
`updateOrderStatus`. -/
def statusOptions : List String :=
  ["Pending", "Scanned", "Fulfilled"]

/-- Number of cart entries whose product id resolves in the catalog (the
entries that `priceMatrix` does not skip). -/
def entriesFound (cart : List CartEntry) (products : List Product) : Nat :=
  (cart.filter (fun e => (findProduct products e.productId).isSome)).length

/-- Exact contribution of one cart entry to one store's total: price times
quantity when the entry resolves to a product with an available offer at
that store, and 0 otherwise. Reference function used to characterize the
accumulated totals. -/
def entrySubtotal (products : List Product) (storeId : String)
    (e : CartEntry) : ℚ :=
  match findProduct products e.productId with
  | none => 0
  | some p =>
    match p.offerFor storeId with
    | some offer => if offer.available then offer.price * (e.quantity : ℚ)
                    else 0
    | none => 0

/-- Exact sum of the cart's contributions to one store's total. -/
def storeSubtotal (cart : List CartEntry) (products : List Product)
    (storeId : String) : ℚ :=
  (cart.map (entrySubtotal products storeId)).sum

/-! Concrete data used by witnesses and counterexamples. -/

def storeA : Store where
  id := "alpha-mart"
  name := "Alpha Mart"
  deliveryFee := 399 / 100
  etaLabel := "1-2 days"
  rating := 4

def storeB : Store where
  id := "beta-basket"
  name := "Beta Basket"
  deliveryFee := 249 / 100
  etaLabel := "2-3 days"
  rating := 9 / 2

/-- Product available at `storeA` and listed but unavailable at `storeB`. -/
def productP : Product where
  id := 1
  name := "Wireless Mouse"
  category := "Electronics"
  brand := "Acme"
  description := "A mouse"
  specs := ["2.4 GHz"]
  pricing := [("alpha-mart", { price := 10, available := true }),
              ("beta-basket", { price := 9, available := false })]

/-- Product unavailable everywhere (its only pricing entry is marked
unavailable). -/
def productQ : Product where
  id := 2
  name := "Mechanical Keyboard"
  category := "Electronics"
  brand := "Acme"
  description := "A keyboard"
  specs := []
  pricing := [("alpha-mart", { price := 5, available := false })]

def quoteTieA : StoreQuote where
  store := storeA
  total := 1399 / 100
  unavailable := []
  items := []
  availableCount := 1
  missingCount := 0

def quoteTieB : StoreQuote where
  store := storeB
  total := 1399 / 100
  unavailable := []
  items := []
  availableCount := 1
  missingCount := 0

def quoteMissing : StoreQuote where
  store := storeB
  total := 249 / 100
  unavailable := ["Wireless Mouse"]
  items := []
  availableCount := 0
  missingCount := 1

/-- Checkout parameters with no explicitly selected store. -/
def psNone : CheckoutParams where
  user := { name := some "Ada", email := none }
  storeId := none
  address := "1 Main St"
  paymentMethod := none
  paymentNote := none

/-- A pending order, as `checkoutCart` would snapshot one. -/
def orderPending : Order where
  id := "ORD-1"
  placedAt := "2026-01-01T00:00:00.000Z"
  customer := "Guest"
  customerEmail := "-"
  items := []
  storeComparisons := []
  bestStoreId := none
  bestStoreName := none
  selectedStoreId := none
  selectedStoreName := none
  selectedStoreTotal := none
  selectedStoreDelivery := none
  paymentMethod := "cod"
  paymentNote := ""
  address := "1 Main St"
  status := "Pending"

/-! Properties of the stable sort and of best-store selection. -/

theorem head?_insertByTotal (a : StoreQuote) (l : List StoreQuote) :
    (insertByTotal a l).head? =
      some (match l.head? with
            | none => a
            | some b => if a.total ≤ b.total then a else b) := by
  cases l with
  | nil => simp [insertByTotal]
  | cons b t =>
    by_cases hab : a.total ≤ b.total <;> simp [insertByTotal, hab]

theorem head?_sortByTotal : ∀ l : List StoreQuote,
    (sortByTotal l).head? = firstMin l := by
  intro l
  induction l with
  | nil => rfl
  | cons a l ih =>
    simp only [sortByTotal, firstMin, ← ih, head?_insertByTotal]
    cases h : (sortByTotal l).head? with
    | none => simp
    | some b => by_cases hab : a.total ≤ b.total <;> simp [hab]

theorem selectBestStore_eq_firstMin (quotes : List StoreQuote) :
    selectBestStore quotes =
      firstMin (quotes.filter (fun q => q.missingCount == 0)) :=
  head?_sortByTotal _

theorem firstMin_eq_none {l : List StoreQuote} :
    firstMin l = none ↔ l = [] := by
  cases l with
  | nil => simp [firstMin]
  | cons a t =>
    simp only [firstMin]
    cases h : firstMin t with
    | none => simp
    | some b => by_cases hab : a.total ≤ b.total <;> simp [hab]

theorem firstMin_mem : ∀ {l : List StoreQuote} {q : StoreQuote},
    firstMin l = some q → q ∈ l := by
  intro l
  induction l with
  | nil => intro q h; simp [firstMin] at h
  | cons a t ih =>
    intro q h
    simp only [firstMin] at h
    cases ht : firstMin t with
    | none => rw [ht] at h; simp at h; simp [h]
    | some b =>
      rw [ht] at h
      by_cases hab : a.total ≤ b.total
      · simp [hab] at h; simp [h]
      · simp [hab] at h
        exact List.mem_cons_of_mem a (ih (h ▸ ht))

theorem firstMin_le : ∀ {l : List StoreQuote} {q : StoreQuote},
    firstMin l = some q → ∀ r ∈ l, q.total ≤ r.total := by
  intro l
  induction l with
  | nil => intro q h; simp [firstMin] at h
  | cons a t ih =>
    intro q h r hr
    simp only [firstMin] at h
    cases ht : firstMin t with
    | none =>
      rw [ht] at h
      simp only [Option.some.injEq] at h
      have : t = [] := firstMin_eq_none.mp ht
      subst this
      rcases List.mem_singleton.mp hr with rfl
      exact h ▸ le_refl _
    | some b =>
      rw [ht] at h
      by_cases hab : a.total ≤ b.total
      · simp only [hab, if_pos] at h
        cases h
        rcases List.mem_cons.mp hr with rfl | hrt
        · exact le_refl _
        · exact le_trans hab (ih ht r hrt)
      · simp only [hab, if_neg, not_false_iff] at h
        cases h
        rcases List.mem_cons.mp hr with rfl | hrt
        · exact le_of_not_le hab
        · exact ih ht r hrt

theorem firstMin_first : ∀ {l : List StoreQuote} {q : StoreQuote},
    firstMin l = some q →
    ∃ l₁ l₂, l = l₁ ++ q :: l₂ ∧ ∀ r ∈ l₁, q.total < r.total := by
  intro l
  induction l with
  | nil => intro q h; simp [firstMin] at h
  | cons a t ih =>
    intro q h
    simp only [firstMin] at h
    cases ht : firstMin t with
    | none =>
      rw [ht] at h
      simp only [Option.some.injEq] at h
      exact ⟨[], t, by simp [h], by simp⟩
    | some b =>
      rw [ht] at h
      by_cases hab : a.total ≤ b.total
      · simp only [hab, if_pos] at h
        cases h
        exact ⟨[], t, rfl, by simp⟩
      · simp only [hab, if_neg, not_false_iff] at h
        cases h
        obtain ⟨l₁, l₂, rfl, hstrict⟩ := ih ht
        refine ⟨a :: l₁, l₂, rfl, ?_⟩
        intro r hr
        rcases List.mem_cons.mp hr with rfl | hrl
        · exact lt_of_not_le hab
        · exact hstrict r hrl

theorem filter_split {α : Type} (p : α → Bool) :
    ∀ {l f₁ f₂ : List α} {q : α}, l.filter p = f₁ ++ q :: f₂ →
    ∃ l₁ l₂, l = l₁ ++ q :: l₂ ∧ l₁.filter p = f₁ := by
  intro l
  induction l with
  | nil =>
    intro f₁ f₂ q h
    simp only [List.filter_nil] at h
    exact absurd h.symm (List.append_ne_nil_of_right_ne_nil f₁ (by simp))
  | cons a t ih =>
    intro f₁ f₂ q h
    by_cases hp : p a
    · rw [List.filter_cons_of_pos hp] at h
      cases f₁ with
      | nil =>
        simp only [List.nil_append, List.cons.injEq] at h
        exact ⟨[], t, by simp [h.1], by simp⟩
      | cons b f₁ =>
        simp only [List.cons_append, List.cons.injEq] at h
        obtain ⟨rfl, ht⟩ := h
        obtain ⟨l₁, l₂, rfl, hf⟩ := ih ht
        exact ⟨a :: l₁, l₂, rfl, by rw [List.filter_cons_of_pos hp, hf]⟩
    · rw [List.filter_cons_of_neg hp] at h
      obtain ⟨l₁, l₂, rfl, hf⟩ := ih h
      exact ⟨a :: l₁, l₂, rfl, by rw [List.filter_cons_of_neg hp, hf]⟩

/-- C1. For every list of store quotes, the best-store selection returns
`none` when no quote has `missingCount = 0`; otherwise it returns a quote
with `missingCount = 0` whose total is minimal among such quotes, and it is
the first quote of the list (store declaration order) achieving that
minimum — every earlier fully-stocked quote has a strictly larger total. In
particular it never returns a quote with `missingCount > 0`. -/
theorem selectBestStore_spec (quotes : List StoreQuote) :
    (selectBestStore quotes = none ↔ ∀ q ∈ quotes, q.missingCount ≠ 0) ∧
    ∀ q, selectBestStore quotes = some q →
      q.missingCount = 0 ∧
      (∀ r ∈ quotes, r.missingCount = 0 → q.total ≤ r.total) ∧
      ∃ l₁ l₂, quotes = l₁ ++ q :: l₂ ∧
        ∀ r ∈ l₁, r.missingCount = 0 → q.total < r.total := by
  rw [selectBestStore_eq_firstMin]
  constructor
  · rw [firstMin_eq_none, List.filter_eq_nil_iff]
    simp
  · intro q hq
    have hmem := firstMin_mem hq
    have hq0 : q.missingCount = 0 := by
      have := (List.mem_filter.mp hmem).2
      simpa using this
    refine ⟨hq0, ?_, ?_⟩
    · intro r hr hr0
      exact firstMin_le hq r (List.mem_filter.mpr ⟨hr, by simpa using hr0⟩)
    · obtain ⟨f₁, f₂, hf, hstrict⟩ := firstMin_first hq
      obtain ⟨l₁, l₂, rfl, hfilter⟩ := filter_split _ hf
      refine ⟨l₁, l₂, rfl, ?_⟩
      intro r hr hr0
      exact hstrict r (hfilter ▸ List.mem_filter.mpr ⟨hr, by simpa using hr0⟩)

/-- Witness for C1: on the concrete quote list `[quoteMissing, quoteTieA,
quoteTieB]` (a partially stocked cheaper store followed by two fully stocked
stores with tied totals) the selection returns `quoteTieA`, the first of the
tied fully-stocked quotes. -/
theorem selectBestStore_spec_witness :
    selectBestStore [quoteMissing, quoteTieA, quoteTieB] = some quoteTieA ∧
    (quoteTieA.missingCount = 0 ∧
      (∀ r ∈ [quoteMissing, quoteTieA, quoteTieB],
        r.missingCount = 0 → quoteTieA.total ≤ r.total) ∧
      ∃ l₁ l₂, [quoteMissing, quoteTieA, quoteTieB] = l₁ ++ quoteTieA :: l₂ ∧
        ∀ r ∈ l₁, r.missingCount = 0 → quoteTieA.total < r.total) := by
  have hsel : selectBestStore [quoteMissing, quoteTieA, quoteTieB] =
      some quoteTieA := by
    simp [selectBestStore, sortByTotal, insertByTotal, quoteMissing,
      quoteTieA, quoteTieB, storeA, storeB]
  exact ⟨hsel,
    (selectBestStore_spec [quoteMissing, quoteTieA, quoteTieB]).2 quoteTieA hsel⟩

/-! Counting available and missing products per quote. -/

theorem entriesFound_nil (products : List Product) :
    entriesFound [] products = 0 := rfl

theorem entriesFound_cons (e : CartEntry) (cart : List CartEntry)
    (products : List Product) :
    entriesFound (e :: cart) products =
      (if (findProduct products e.productId).isSome then 1 else 0) +
        entriesFound cart products := by
  simp only [entriesFound, List.filter_cons]
  split <;> simp [Nat.add_comm]

theorem applyOffer_counts (p : Product) (q : Int) (st : StoreTotal) :
    (applyOffer p q st).unavailable.length + (applyOffer p q st).items.length =
      st.unavailable.length + st.items.length + 1 := by
  unfold applyOffer
  cases p.offerFor st.store.id with
  | none => simp; omega
  | some offer =>
    by_cases h : offer.available <;> simp [h] <;> omega

theorem foldl_stepEntry_counts (products : List Product) :
    ∀ (cart : List CartEntry) (totals : List StoreTotal)
      (st : StoreTotal), st ∈ cart.foldl (stepEntry products) totals →
      ∃ st₀ ∈ totals,
        st.unavailable.length + st.items.length =
          st₀.unavailable.length + st₀.items.length +
            entriesFound cart products := by
  intro cart
  induction cart with
  | nil =>
    intro totals st hst
    exact ⟨st, hst, by simp [entriesFound_nil]⟩
  | cons e cart ih =>
    intro totals st hst
    rw [List.foldl_cons] at hst
    obtain ⟨st₀, hst₀, hsum⟩ := ih (stepEntry products totals e) st hst
    cases hfind : findProduct products e.productId with
    | none =>
      rw [stepEntry, hfind] at hst₀
      refine ⟨st₀, hst₀, ?_⟩
      rw [entriesFound_cons, hfind]
      simpa using hsum
    | some p =>
      rw [stepEntry, hfind] at hst₀
      obtain ⟨st₁, hst₁, rfl⟩ := List.mem_map.mp hst₀
      refine ⟨st₁, hst₁, ?_⟩
      rw [entriesFound_cons, hfind]
      have := applyOffer_counts p e.quantity st₁
      simp only [Option.isSome_some, if_pos]
      omega

/-- C2 (amended). For every cart, catalog and store, the quote satisfies
`missingCount + availableCount = entriesFound cart products`, the number of
cart entries whose product id occurs in the catalog; when every cart entry
resolves in the catalog this is exactly the number of cart entries. A cart
entry whose product id does not occur in the catalog is skipped by
`priceMatrix` and is counted in neither summand. -/
theorem priceMatrix_counts (cart : List CartEntry) (products : List Product)
    (stores : List Store) :
    (∀ q ∈ priceMatrix cart products stores,
      q.missingCount + q.availableCount = entriesFound cart products) ∧
    ((∀ e ∈ cart, (findProduct products e.productId).isSome) →
      entriesFound cart products = cart.length) := by
  constructor
  · intro q hq
    obtain ⟨st, hst, rfl⟩ := List.mem_map.mp hq
    obtain ⟨st₀, hst₀, hsum⟩ :=
      foldl_stepEntry_counts products cart (initTotals stores) st hst
    obtain ⟨s, _, rfl⟩ := List.mem_map.mp hst₀
    simpa [formatQuote] using hsum
  · intro hall
    unfold entriesFound
    rw [List.filter_eq_self.mpr hall]

/-- Counterexample for C2 as stated: with the cart `[{productId 99,
quantity 2}]` whose only entry references no catalog product, the single
store quote has `missingCount + availableCount = 0`, not `1` (the number of
distinct products in the cart). -/
theorem priceMatrix_counts_cex :
    (priceMatrix [⟨99, 2⟩] [productP] [storeA]).map
        (fun q => q.missingCount + q.availableCount) = [0] ∧
    ([⟨99, 2⟩] : List CartEntry).length = 1 ∧ (0 : Nat) ≠ 1 := by
  refine ⟨?_, rfl, by omega⟩
  simp [priceMatrix, stepEntry, findProduct, initTotals, applyOffer,
    Product.offerFor, formatQuote, roundCents, productP, storeA, List.find?]

/-- Witness for C2: on a cart whose single entry resolves in the catalog,
every quote of the concrete two-store matrix satisfies the count identity,
and `entriesFound` equals the cart length. -/
theorem priceMatrix_counts_witness :
    (∀ q ∈ priceMatrix [⟨1, 1⟩] [productP] [storeA, storeB],
      q.missingCount + q.availableCount = entriesFound [⟨1, 1⟩] [productP]) ∧
    entriesFound [⟨1, 1⟩] [productP] = ([⟨1, 1⟩] : List CartEntry).length := by
  exact ⟨(priceMatrix_counts [⟨1, 1⟩] [productP] [storeA, storeB]).1,
    (priceMatrix_counts [⟨1, 1⟩] [productP] [storeA, storeB]).2
      (by simp [findProduct, productP, List.find?])⟩

/-! Dangling cart entries are skipped by the quote computation. -/

/-- C8. A cart entry whose product id matches no catalog product contributes
nothing to any quote: the price matrix of a cart containing it equals the
price matrix of the same cart with that entry removed (it reaches no store's
total, items, unavailable list, or counts). The computation is a total
function, so it cannot throw. -/
theorem priceMatrix_dangling_skip (l₁ : List CartEntry) (e : CartEntry)
    (l₂ : List CartEntry) (products : List Product) (stores : List Store)
    (h : findProduct products e.productId = none) :
    priceMatrix (l₁ ++ e :: l₂) products stores =
      priceMatrix (l₁ ++ l₂) products stores := by
  unfold priceMatrix
  rw [List.foldl_append, List.foldl_append, List.foldl_cons]
  rw [show stepEntry products (l₁.foldl (stepEntry products)
        (initTotals stores)) e =
      l₁.foldl (stepEntry products) (initTotals stores) from by
    rw [stepEntry, h]]

/-- Witness for C8: removing the dangling entry `{productId 99, quantity 2}`
from a concrete two-entry cart leaves the price matrix unchanged. -/
theorem priceMatrix_dangling_skip_witness :
    findProduct [productP] (99 : Int) = none ∧
    priceMatrix ([⟨1, 1⟩] ++ (⟨99, 2⟩ : CartEntry) :: []) [productP]
        [storeA, storeB] =
      priceMatrix ([⟨1, 1⟩] ++ []) [productP] [storeA, storeB] := by
  refine ⟨by simp [findProduct, productP, List.find?], ?_⟩
  exact priceMatrix_dangling_skip [⟨1, 1⟩] ⟨99, 2⟩ [] [productP]
    [storeA, storeB] (by simp [findProduct, productP, List.find?])

/-! Checkout. -/

theorem checkout_some_eq (products : List Product) (stores : List Store)
    (ps : CheckoutParams) (nowMs : Int) (nowIso : String) (st : CartState)
    (o : Order)
    (h : (checkoutCart products stores ps nowMs nowIso st).1 = some o) :
    o = buildOrder products stores ps nowMs nowIso st.cart := by
  unfold checkoutCart at h
  by_cases hemp : st.cart.isEmpty = true
  · rw [if_pos hemp] at h
    simp at h
  · rw [if_neg hemp] at h
    exact (Option.some.inj h).symm

theorem buildOrder_status (products : List Product) (stores : List Store)
    (ps : CheckoutParams) (nowMs : Int) (nowIso : String)
    (cart : List CartEntry) :
    (buildOrder products stores ps nowMs nowIso cart).status = "Pending" :=
  rfl

theorem buildOrder_items (products : List Product) (stores : List Store)
    (ps : CheckoutParams) (nowMs : Int) (nowIso : String)
    (cart : List CartEntry) :
    (buildOrder products stores ps nowMs nowIso cart).items =
      cart.map (enrichItem products) :=
  rfl

theorem buildOrder_comparisons (products : List Product) (stores : List Store)
    (ps : CheckoutParams) (nowMs : Int) (nowIso : String)
    (cart : List CartEntry) :
    (buildOrder products stores ps nowMs nowIso cart).storeComparisons =
      priceMatrix cart products stores :=
  rfl

theorem buildOrder_selectedStoreId (products : List Product)
    (stores : List Store) (ps : CheckoutParams) (nowMs : Int)
    (nowIso : String) (cart : List CartEntry) :
    (buildOrder products stores ps nowMs nowIso cart).selectedStoreId =
      strOrNull ((chosenStoreOf (priceMatrix cart products stores)
        ps.storeId).map (fun q => q.store.id)) :=
  rfl

/-- C6. Checkout on an empty cart returns `none` and leaves the whole state
(cart and order history) unchanged. -/
theorem checkout_empty_noop (products : List Product) (stores : List Store)
    (ps : CheckoutParams) (nowMs : Int) (nowIso : String) (st : CartState)
    (h : st.cart = []) :
    checkoutCart products stores ps nowMs nowIso st = (none, st) := by
  unfold checkoutCart
  rw [if_pos (by simp [h])]

/-- Witness for C6: checkout of the empty cart over a concrete catalog
returns `none` and the untouched state. -/
theorem checkout_empty_noop_witness :
    checkoutCart [productP] [storeA, storeB] psNone 0 "now"
        { cart := [], orders := [orderPending] } =
      (none, { cart := [], orders := [orderPending] }) :=
  checkout_empty_noop [productP] [storeA, storeB] psNone 0 "now"
    { cart := [], orders := [orderPending] } rfl

/-- C7. Checkout on a non-empty cart returns an order with status Pending,
empties the cart, and the new history is exactly that order prepended to the
previous history. -/
theorem checkout_nonempty_spec (products : List Product) (stores : List Store)
    (ps : CheckoutParams) (nowMs : Int) (nowIso : String) (st : CartState)
    (h : st.cart ≠ []) :
    ∃ o, checkoutCart products stores ps nowMs nowIso st =
        (some o, { cart := [], orders := o :: st.orders }) ∧
      o.status = "Pending" := by
  refine ⟨buildOrder products stores ps nowMs nowIso st.cart, ?_,
    buildOrder_status products stores ps nowMs nowIso st.cart⟩
  unfold checkoutCart
  rw [if_neg (by simp [h])]

/-- Witness for C7: checkout of a concrete one-entry cart yields a Pending
order prepended to the existing one-order history, and an empty cart. -/
theorem checkout_nonempty_spec_witness :
    ([⟨1, 1⟩] : List CartEntry) ≠ [] ∧
    ∃ o, checkoutCart [productP] [storeA, storeB] psNone 0 "now"
        { cart := [⟨1, 1⟩], orders := [orderPending] } =
        (some o, { cart := [], orders := [o, orderPending] }) ∧
      o.status = "Pending" :=
  ⟨by simp,
    checkout_nonempty_spec [productP] [storeA, storeB] psNone 0 "now"
      { cart := [⟨1, 1⟩], orders := [orderPending] } (by simp)⟩

/-! Selected store of an order. -/

theorem selectBestStore_mem {quotes : List StoreQuote} {q : StoreQuote}
    (h : selectBestStore quotes = some q) : q ∈ quotes := by
  rw [selectBestStore_eq_firstMin] at h
  exact (List.mem_filter.mp (firstMin_mem h)).1

theorem chosenStoreOf_mem {matrix : List StoreQuote} {sid : Option String}
    {q : StoreQuote} (h : chosenStoreOf matrix sid = some q) : q ∈ matrix := by
  unfold chosenStoreOf at h
  cases hf : matrix.find? (fun r => some r.store.id == sid) with
  | some r =>
    rw [hf] at h
    simp only [Option.orElse] at h
    cases h
    exact List.mem_of_find?_eq_some hf
  | none =>
    rw [hf] at h
    simp only [Option.orElse] at h
    exact selectBestStore_mem h

/-- C4 (amended). For every order created by checkout from a non-empty cart,
`selectedStoreId` is either `none` — which happens when the given `storeId`
matches no quote and no store is fully stocked (or the chosen store's id is
the empty string, which the JS `|| null` coalesces to null) — or a store id
present in the order's `storeComparisons` list. -/
theorem selectedStore_mem_or_null (products : List Product)
    (stores : List Store) (ps : CheckoutParams) (nowMs : Int)
    (nowIso : String) (st : CartState) (o : Order)
    (h : (checkoutCart products stores ps nowMs nowIso st).1 = some o) :
    o.selectedStoreId = none ∨
      ∃ q ∈ o.storeComparisons, some q.store.id = o.selectedStoreId := by
  have ho := checkout_some_eq products stores ps nowMs nowIso st o h
  subst ho
  rw [buildOrder_selectedStoreId, buildOrder_comparisons]
  cases hc : chosenStoreOf (priceMatrix st.cart products stores) ps.storeId with
  | none => left; rfl
  | some q =>
    by_cases hid : q.store.id = ""
    · left
      simp [strOrNull, hid]
    · right
      exact ⟨q, chosenStoreOf_mem hc, by simp [strOrNull, hid]⟩

/-- Counterexample for C4 as stated: checking out the cart `[{productId 2,
quantity 1}]` (product unavailable at the only store) with no explicit store
id creates an order whose `selectedStoreId` is `none`, which is not a store
id of its non-empty `storeComparisons` (the only id there is
"alpha-mart"). -/
theorem selectedStore_cex :
    ((checkoutCart [productQ] [storeA] psNone 0 "now"
        { cart := [⟨2, 1⟩], orders := [] }).1.map
      (fun o => (o.selectedStoreId,
        o.storeComparisons.map (fun q => q.store.id)))) =
      some (none, ["alpha-mart"]) ∧
    (none : Option String) ∉ ["alpha-mart"].map some := by
  constructor
  · simp [checkoutCart, buildOrder, chosenStoreOf, strOrNull, selectBestStore,
      sortByTotal, insertByTotal, priceMatrix, stepEntry, findProduct,
      initTotals, applyOffer, Product.offerFor, formatQuote, roundCents,
      productQ, storeA, psNone, List.find?]
  · simp

/-- Witness for C4: on a cart fully stocked at `storeA`, the created order's
`selectedStoreId` is either `none` or an id among its store comparisons (it
is in fact "alpha-mart"). -/
theorem selectedStore_mem_or_null_witness :
    (buildOrder [productP] [storeA, storeB] psNone 0 "now"
        [⟨1, 1⟩]).selectedStoreId = none ∨
      ∃ q ∈ (buildOrder [productP] [storeA, storeB] psNone 0 "now"
          [⟨1, 1⟩]).storeComparisons,
        some q.store.id =
          (buildOrder [productP] [storeA, storeB] psNone 0 "now"
            [⟨1, 1⟩]).selectedStoreId :=
  selectedStore_mem_or_null [productP] [storeA, storeB] psNone 0 "now"
    { cart := [⟨1, 1⟩], orders := [] } _ (by simp [checkoutCart])

/-! Order status. -/

/-- C5 (amended). Orders are created by checkout with status "Pending", an
element of `statusOptions`; and whenever `updateOrderStatus` is called with
a next-status drawn from `statusOptions` — as its only caller, the Dashboard
status selector, does — every order's status stays within `statusOptions`.
The function itself does not validate its argument: an arbitrary next-status
string is written through unchecked (see the counterexample). -/
theorem orderStatus_inv :
    (∀ (products : List Product) (stores : List Store) (ps : CheckoutParams)
      (nowMs : Int) (nowIso : String) (st : CartState) (o : Order),
      (checkoutCart products stores ps nowMs nowIso st).1 = some o →
      o.status = "Pending" ∧ o.status ∈ statusOptions) ∧
    (∀ (orders : List Order) (orderId nextStatus : String),
      nextStatus ∈ statusOptions →
      (∀ o ∈ orders, o.status ∈ statusOptions) →
      ∀ o ∈ updateOrderStatus orderId nextStatus orders,
        o.status ∈ statusOptions) := by
  constructor
  · intro products stores ps nowMs nowIso st o h
    have ho := checkout_some_eq products stores ps nowMs nowIso st o h
    subst ho
    rw [buildOrder_status]
    exact ⟨rfl, by simp [statusOptions]⟩
  · intro orders orderId nextStatus hnext hall o ho
    obtain ⟨o₀, ho₀, rfl⟩ := List.mem_map.mp ho
    by_cases hid : (o₀.id == orderId) = true
    · rw [if_pos hid]
      exact hnext
    · rw [if_neg hid]
      exact hall o₀ ho₀

/-- Counterexample for C5 as stated: `updateOrderStatus` with the next-status
argument "Shipped" (one of the examples in the function's own doc comment)
moves a matching Pending order to status "Shipped", which is outside the
three enumerated values. -/
theorem orderStatus_cex :
    (updateOrderStatus "ORD-1" "Shipped" [orderPending]).map Order.status =
      ["Shipped"] ∧
    "Shipped" ∉ statusOptions := by
  constructor
  · simp [updateOrderStatus, orderPending]
  · simp [statusOptions]

/-- Witness for C5: a concrete checkout yields a Pending order, and updating
a concrete Pending-order history with "Scanned" keeps every status inside
`statusOptions`. -/
theorem orderStatus_inv_witness :
    ((buildOrder [productP] [storeA, storeB] psNone 0 "now"
        [⟨1, 1⟩]).status = "Pending" ∧
      (buildOrder [productP] [storeA, storeB] psNone 0 "now"
        [⟨1, 1⟩]).status ∈ statusOptions) ∧
    ("Scanned" ∈ statusOptions ∧
      ∀ o ∈ updateOrderStatus "ORD-1" "Scanned" [orderPending],
        o.status ∈ statusOptions) := by
  refine ⟨orderStatus_inv.1 [productP] [storeA, storeB] psNone 0
    "now" { cart := [⟨1, 1⟩], orders := [] } _ (by simp [checkoutCart]),
    ?_, ?_⟩
  · simp [statusOptions]
  · exact orderStatus_inv.2 [orderPending] "ORD-1" "Scanned"
      (by simp [statusOptions])
      (by intro o ho; simp only [List.mem_singleton] at ho; subst ho
          simp [orderPending, statusOptions])

/-! Cart quantity invariants. -/

/-- C9. Cart quantities stay at least 1 under all three cart mutations:
`addToCart` creates an entry with quantity 1 or increments the existing
entry of that product, `removeFromCart` only drops entries, and
`updateQuantity` with a quantity of 0 or less is exactly `removeFromCart`
while a positive quantity overwrites the matching entry. -/
theorem cart_quantity_inv :
    (∀ (pid : Int) (cart : List CartEntry), (∀ e ∈ cart, 1 ≤ e.quantity) →
      ∀ e ∈ addToCart pid cart, 1 ≤ e.quantity) ∧
    (∀ (pid : Int) (cart : List CartEntry), (∀ e ∈ cart, 1 ≤ e.quantity) →
      ∀ e ∈ removeFromCart pid cart, 1 ≤ e.quantity) ∧
    (∀ (pid q : Int) (cart : List CartEntry), (∀ e ∈ cart, 1 ≤ e.quantity) →
      ∀ e ∈ updateQuantity pid q cart, 1 ≤ e.quantity) ∧
    (∀ (pid q : Int) (cart : List CartEntry), q ≤ 0 →
      updateQuantity pid q cart = removeFromCart pid cart) ∧
    (∀ (pid : Int) (cart : List CartEntry),
      (∀ i ∈ cart, i.productId ≠ pid) →
      addToCart pid cart = cart ++ [{ productId := pid, quantity := 1 }]) := by
  have hrem : ∀ (pid : Int) (cart : List CartEntry),
      (∀ e ∈ cart, 1 ≤ e.quantity) →
      ∀ e ∈ removeFromCart pid cart, 1 ≤ e.quantity := by
    intro pid cart hall e he
    exact hall e (List.mem_of_mem_filter he)
  refine ⟨?_, hrem, ?_, ?_, ?_⟩
  · intro pid cart hall e he
    unfold addToCart at he
    cases hf : cart.find? (fun item => item.productId == pid) with
    | some i =>
      rw [hf] at he
      obtain ⟨e₀, he₀, rfl⟩ := List.mem_map.mp he
      by_cases hid : (e₀.productId == pid) = true
      · rw [if_pos hid]
        have := hall e₀ he₀
        simp only []
        omega
      · rw [if_neg hid]
        exact hall e₀ he₀
    | none =>
      rw [hf] at he
      rcases List.mem_append.mp he with h₀ | h₁
      · exact hall e h₀
      · rcases List.mem_singleton.mp h₁ with rfl
        exact le_refl 1
  · intro pid q cart hall e he
    unfold updateQuantity at he
    by_cases hq : q ≤ 0
    · rw [if_pos hq] at he
      exact hrem pid cart hall e he
    · rw [if_neg hq] at he
      obtain ⟨e₀, he₀, rfl⟩ := List.mem_map.mp he
      by_cases hid : (e₀.productId == pid) = true
      · rw [if_pos hid]
        simp only []
        omega
      · rw [if_neg hid]
        exact hall e₀ he₀
  · intro pid q cart hq
    unfold updateQuantity
    rw [if_pos hq]
  · intro pid cart hnone
    unfold addToCart
    rw [List.find?_eq_none.mpr (by intro i hi; simpa using hnone i hi)]

/-- Witness for C9: on the concrete cart `[{productId 1, quantity 1}]` all
five clauses instantiate — in particular adding product 2 appends a fresh
quantity-1 entry and updating product 1 to quantity 0 removes it. -/
theorem cart_quantity_inv_witness :
    (∀ e ∈ addToCart 1 [(⟨1, 1⟩ : CartEntry)], 1 ≤ e.quantity) ∧
    updateQuantity 1 0 [(⟨1, 1⟩ : CartEntry)] =
      removeFromCart 1 [(⟨1, 1⟩ : CartEntry)] ∧
    addToCart 2 [(⟨1, 1⟩ : CartEntry)] =
      [(⟨1, 1⟩ : CartEntry)] ++ [{ productId := 2, quantity := 1 }] :=
  ⟨cart_quantity_inv.1 1 [⟨1, 1⟩] (by intro e he; simp at he; simp [he]),
    cart_quantity_inv.2.2.2.1 1 0 [⟨1, 1⟩] (by omega),
    cart_quantity_inv.2.2.2.2 2 [⟨1, 1⟩]
      (by intro i hi; simp at hi; simp [hi])⟩

/-! Checkout item snapshot and dangling references. -/

/-- C10. Unlike the quote computation, the item snapshot taken by checkout
does not skip dangling references: the order's items list has one element
per cart entry, and the element for a cart entry whose product id resolves
to no catalog product carries only the quantity (spreading `undefined` adds
no product fields, modelled as `product := none`). -/
theorem checkout_items_dangling (products : List Product)
    (stores : List Store) (ps : CheckoutParams) (nowMs : Int)
    (nowIso : String) (st : CartState) (o : Order) (l₁ : List CartEntry)
    (e : CartEntry) (l₂ : List CartEntry)
    (hcart : st.cart = l₁ ++ e :: l₂)
    (hmiss : findProduct products e.productId = none)
    (h : (checkoutCart products stores ps nowMs nowIso st).1 = some o) :
    o.items.length = st.cart.length ∧
    o.items[l₁.length]? = some { product := none, quantity := e.quantity } := by
  have ho := checkout_some_eq products stores ps nowMs nowIso st o h
  subst ho
  rw [buildOrder_items]
  constructor
  · rw [List.length_map]
  · rw [hcart, List.map_append, List.map_cons]
    rw [List.getElem?_append_right (by simp)]
    simp [enrichItem, hmiss]

/-- Witness for C10: checking out the concrete cart `[{productId 1,
quantity 1}, {productId 99, quantity 2}]` whose second entry is dangling
yields an order with two items, the second being `{quantity 2}` with no
product fields. -/
theorem checkout_items_dangling_witness :
    (buildOrder [productP] [storeA] psNone 0 "now"
        [⟨1, 1⟩, ⟨99, 2⟩]).items.length =
      ([⟨1, 1⟩, ⟨99, 2⟩] : List CartEntry).length ∧
    (buildOrder [productP] [storeA] psNone 0 "now"
        [⟨1, 1⟩, ⟨99, 2⟩]).items[1]? =
      some { product := none, quantity := 2 } := by
  have h := checkout_items_dangling [productP] [storeA] psNone 0 "now"
    { cart := [⟨1, 1⟩, ⟨99, 2⟩], orders := [] }
    (buildOrder [productP] [storeA] psNone 0 "now" [⟨1, 1⟩, ⟨99, 2⟩])
    [⟨1, 1⟩] ⟨99, 2⟩ [] rfl
    (by simp [findProduct, productP, List.find?])
    (by simp [checkoutCart])
  simpa using h

/-! Supporting facts: `sortByTotal` is a permutation of its input and is
sorted by total, so together with the stability captured by
`head?_sortByTotal` it is the ECMAScript stable sort under the comparator
`(a, b) => a.total - b.total`. -/

theorem insertByTotal_perm (a : StoreQuote) :
    ∀ l : List StoreQuote, List.Perm (insertByTotal a l) (a :: l) := by
  intro l
  induction l with
  | nil => exact List.Perm.refl _
  | cons b t ih =>
    by_cases hab : a.total ≤ b.total
    · rw [insertByTotal, if_pos hab]
    · rw [insertByTotal, if_neg hab]
      exact (ih.cons b).trans (List.Perm.swap a b t)

theorem sortByTotal_perm :
    ∀ l : List StoreQuote, List.Perm (sortByTotal l) l := by
  intro l
  induction l with
  | nil => exact List.Perm.refl _
  | cons a t ih =>
    exact (insertByTotal_perm a (sortByTotal t)).trans (ih.cons a)

theorem insertByTotal_sorted (a : StoreQuote) :
    ∀ l : List StoreQuote,
    l.Pairwise (fun x y => x.total ≤ y.total) →
    (insertByTotal a l).Pairwise (fun x y => x.total ≤ y.total) := by
  intro l
  induction l with
  | nil => intro _; simp [insertByTotal]
  | cons b t ih =>
    intro hsort
    rw [List.pairwise_cons] at hsort
    by_cases hab : a.total ≤ b.total
    · rw [insertByTotal, if_pos hab]
      refine List.Pairwise.cons ?_ (List.Pairwise.cons hsort.1 hsort.2)
      intro x hx
      rcases List.mem_cons.mp hx with rfl | hxt
      · exact hab
      · exact le_trans hab (hsort.1 x hxt)
    · rw [insertByTotal, if_neg hab]
      refine List.Pairwise.cons ?_ (ih hsort.2)
      intro x hx
      rcases List.mem_cons.mp ((insertByTotal_perm a t).mem_iff.mp hx) with
        rfl | hxt
      · exact le_of_not_le hab
      · exact hsort.1 x hxt

theorem sortByTotal_sorted : ∀ l : List StoreQuote,
    (sortByTotal l).Pairwise (fun x y => x.total ≤ y.total) := by
  intro l
  induction l with
  | nil => simp [sortByTotal]
  | cons a t ih => exact insertByTotal_sorted a (sortByTotal t) ih

/-! Supporting facts: exact-arithmetic characterization of the accumulated
totals. Over the exact rationals of this embedding, every quote's total is
the store's delivery fee plus the sum of price times quantity over the cart
entries available at that store, rounded by `roundCents` (round half up at
the cent applied to the exact value). Whether the JavaScript original — which
accumulates in IEEE-754 binary64 and rounds with `toFixed` — realizes this
decimal rounding at representation-dependent ties is outside this
embedding. -/

theorem applyOffer_store (p : Product) (q : Int) (st : StoreTotal) :
    (applyOffer p q st).store = st.store := by
  unfold applyOffer
  cases p.offerFor st.store.id with
  | none => rfl
  | some offer => by_cases h : offer.available <;> simp [h]

theorem applyOffer_total (p : Product) (q : Int) (st : StoreTotal) :
    (applyOffer p q st).total =
      st.total + (match p.offerFor st.store.id with
        | some offer => if offer.available then offer.price * (q : ℚ) else 0
        | none => 0) := by
  unfold applyOffer
  cases p.offerFor st.store.id with
  | none => simp
  | some offer => by_cases h : offer.available <;> simp [h]

theorem storeSubtotal_cons (e : CartEntry) (cart : List CartEntry)
    (products : List Product) (storeId : String) :
    storeSubtotal (e :: cart) products storeId =
      entrySubtotal products storeId e +
        storeSubtotal cart products storeId := by
  simp [storeSubtotal]

theorem foldl_stepEntry_total (products : List Product) :
    ∀ (cart : List CartEntry) (totals : List StoreTotal) (st : StoreTotal),
      st ∈ cart.foldl (stepEntry products) totals →
      ∃ st₀ ∈ totals, st.store = st₀.store ∧
        st.total = st₀.total +
          storeSubtotal cart products st₀.store.id := by
  intro cart
  induction cart with
  | nil =>
    intro totals st hst
    exact ⟨st, hst, rfl, by simp [storeSubtotal]⟩
  | cons e cart ih =>
    intro totals st hst
    rw [List.foldl_cons] at hst
    obtain ⟨st₀, hst₀, hstore, hsum⟩ :=
      ih (stepEntry products totals e) st hst
    cases hfind : findProduct products e.productId with
    | none =>
      rw [stepEntry, hfind] at hst₀
      refine ⟨st₀, hst₀, hstore, ?_⟩
      rw [hsum, storeSubtotal_cons]
      rw [show entrySubtotal products st₀.store.id e = 0 from by
        simp [entrySubtotal, hfind]]
      ring
    | some p =>
      rw [stepEntry, hfind] at hst₀
      obtain ⟨st₁, hst₁, rfl⟩ := List.mem_map.mp hst₀
      refine ⟨st₁, hst₁, hstore.trans (applyOffer_store p e.quantity st₁), ?_⟩
      rw [hsum, applyOffer_total, applyOffer_store, storeSubtotal_cons]
      rw [show entrySubtotal products st₁.store.id e =
          (match p.offerFor st₁.store.id with
            | some offer =>
              if offer.available then offer.price * (e.quantity : ℚ) else 0
            | none => 0) from by
        simp [entrySubtotal, hfind]]
      ring

/-- Exact-rational totals: every quote's total is `roundCents` of the
delivery fee plus the exact availability-weighted subtotal. -/
theorem priceMatrix_total (cart : List CartEntry) (products : List Product)
    (stores : List Store) :
    ∀ q ∈ priceMatrix cart products stores, ∃ s ∈ stores, q.store = s ∧
      q.total = roundCents (s.deliveryFee +
        storeSubtotal cart products s.id) := by
  intro q hq
  obtain ⟨st, hst, rfl⟩ := List.mem_map.mp hq
  obtain ⟨st₀, hst₀, hstore, hsum⟩ :=
    foldl_stepEntry_total products cart (initTotals stores) st hst
  obtain ⟨s, hs, rfl⟩ := List.mem_map.mp hst₀
  exact ⟨s, hs, hstore, by rw [formatQuote, hsum]⟩

end Cleancart
